import Mathlib

/-!
Verification of the Cartographer Discovery Charts repository.

This file shallowly embeds the pieces of the repository that the claims
refer to:

* the sliding-window rate limiter (`checkRateLimit` / `logRequest`,
  from `supabase/functions/_shared/rateLimit.ts`),
* the two authenticated edge handlers
  (`supabase/functions/text-to-speech/index.ts` and
  `supabase/functions/ingestPoster/index.ts`),
* the canvas image pipeline of `src/components/RegistrationEditor.tsx`
  (`resizeImageIfNeeded`, `inpaintRegion`, the segmentation alpha loop of
  `removeBackground`),
* the overlay stacking-order computation of `src/pages/OverlayCreator.tsx`.

Machine floats are modelled by exact rationals, JavaScript `Math.round`
by `fun q => (q + 1/2).floor`, and the mutable pixel buffers by functions
from byte index to byte value updated pointwise.
-/

namespace Cartographer

/-! ## Rate limiter (supabase/functions/_shared/rateLimit.ts) -/

/-- Static rate-limit policy record, `RateLimitConfig` in the source. -/
structure RateLimitConfig where
  requests : Int
  window : Int
  deriving DecidableEq, Repr

/-- One row of the `request_logs` table: `(user_id, endpoint, created_at)`,
with `created_at` in milliseconds. -/
structure RequestLogEntry where
  userId : String
  endpoint : String
  createdAt : Int
  deriving DecidableEq, Repr

/-- The static policy table `RATE_LIMITS` of `rateLimit.ts`. -/
def RATE_LIMITS (endpoint : String) : Option RateLimitConfig :=
  if endpoint = "historian-qa" then some ⟨10, 60⟩
  else if endpoint = "overlay-artist" then some ⟨5, 60⟩
  else if endpoint = "text-to-speech" then some ⟨20, 60⟩
  else none

/-- Outcome of the `request_logs` select query issued by `checkRateLimit`:
either the matching rows are returned, or the client reports an error in
its `error` field, or the awaited call throws. -/
inductive QueryOutcome where
  | rows (entries : List RequestLogEntry)
  | errorField (name : String)
  | throws (name : String)
  deriving DecidableEq, Repr

/-- Result record of `checkRateLimit`. -/
structure RateLimitResult where
  allowed : Bool
  remaining : Int
  deriving DecidableEq, Repr

/-- Shallow embedding of `checkRateLimit(userId, endpoint, supabase)`.
The supabase query `.eq('user_id', userId).eq('endpoint', endpoint)
.gte('created_at', windowStart)` is modelled by the corresponding chain of
filters over the table rows; `q` is the outcome of that query and `now`
is `Date.now()` in milliseconds. -/
def checkRateLimit (userId endpoint : String) (q : QueryOutcome) (now : Int) :
    RateLimitResult :=
  match RATE_LIMITS endpoint with
  | none => ⟨true, 999⟩
  | some limit =>
    let windowStart := now - limit.window * 1000
    match q with
    | .throws _ => ⟨true, 999⟩
    | .errorField _ => ⟨true, 999⟩
    | .rows entries =>
      let data :=
        ((entries.filter (fun e => e.userId == userId)).filter
          (fun e => e.endpoint == endpoint)).filter
          (fun e => windowStart ≤ e.createdAt)
      let count : Int := data.length
      ⟨count < limit.requests, max 0 (limit.requests - count)⟩

/-- Outcome of the `request_logs` insert issued by `logRequest`: the row is
created at some timestamp, or the awaited call throws. -/
inductive InsertOutcome where
  | success (createdAt : Int)
  | throws (name : String)
  deriving DecidableEq, Repr

/-- Shallow embedding of `logRequest(userId, endpoint, supabase)`.  The
function body is one `try`/`catch`; a JavaScript async function that can
reject is modelled as `Except`-valued, and the `catch` block (which only
logs) turns every failure into a normal return.  The returned store is the
log table after the call. -/
def logRequest (userId endpoint : String) (store : List RequestLogEntry)
    (ins : InsertOutcome) : Except String (List RequestLogEntry) :=
  match ins with
  | .success t => .ok (store ++ [⟨userId, endpoint, t⟩])
  | .throws _ => .ok store

/-- Count, per the specification text: rows matching
`(subjectId, endpointName, timestamp ≥ now − windowSeconds)`. -/
def specWindowCount (userId endpoint : String) (entries : List RequestLogEntry)
    (now windowSeconds : Int) : Nat :=
  entries.countP
    (fun e =>
      e.userId == userId && e.endpoint == endpoint &&
        (now - windowSeconds * 1000 ≤ e.createdAt))

/-! ## Edge handlers (supabase/functions/text-to-speech, ingestPoster) -/

/-- Observable outcome of one edge-handler invocation: the HTTP status,
the `error` and `remaining` fields of a JSON response body when present,
and counters for the externally visible side effects the handler performed
(rate-limiter consultations, `logRequest` calls, third-party API calls,
storage uploads, database inserts). -/
structure HandlerOutcome where
  status : Nat
  error : Option String := none
  remaining : Option Int := none
  rateChecks : Nat := 0
  logAttempts : Nat := 0
  apiCalls : Nat := 0
  storageUploads : Nat := 0
  dbInserts : Nat := 0
  deriving DecidableEq, Repr

/-- Parsed JSON body of a text-to-speech request.  A field is `none` when
it is absent or empty, i.e. falsy under the `!text || !voiceId` test. -/
structure TtsBody where
  text : Option String
  voiceId : Option String
  deriving DecidableEq, Repr

/-- Outcome of the upstream ElevenLabs `fetch`: the awaited call throws,
or it returns a response with `response.ok` as given. -/
inductive UpstreamResult where
  | throws (name : String)
  | result (ok : Bool)
  deriving DecidableEq, Repr

/-- Environment of one text-to-speech invocation: the request method and
body (`none` when `await req.json()` throws), the result of
`supabase.auth.getUser()` (`none` on error or missing user), the
rate-limit store query outcome and current time, the `ELEVENLABS_API_KEY`
environment variable, and the upstream fetch outcome. -/
structure TtsEnv where
  method : String
  body : Option TtsBody
  authUser : Option String
  store : QueryOutcome
  now : Int
  apiKey : Option String
  upstream : UpstreamResult
  deriving DecidableEq, Repr

/-- Shallow embedding of the `serve` handler of
`supabase/functions/text-to-speech/index.ts`.  The handler parses the JSON
body first (a parse failure lands in the outer `catch`), then
authenticates, consults `checkRateLimit`, fires `logRequest`, checks the
API key, validates `text`/`voiceId`, and performs the upstream call. -/
def ttsHandler (env : TtsEnv) : HandlerOutcome :=
  if env.method = "OPTIONS" then { status := 200 }
  else
    match env.body with
    | none => { status := 500,
                error := some "Unable to generate speech. Please try again." }
    | some b =>
      match env.authUser with
      | none => { status := 401, error := some "Unauthorized" }
      | some uid =>
        let rc := checkRateLimit uid "text-to-speech" env.store env.now
        if ¬ rc.allowed then
          { status := 429,
            error := some "Rate limit exceeded. Please try again later.",
            remaining := some 0, rateChecks := 1 }
        else
          match env.apiKey with
          | none =>
            { status := 500,
              error := some "Speech service not configured. Contact administrator.",
              rateChecks := 1, logAttempts := 1 }
          | some _ =>
            if b.text = none ∨ b.voiceId = none then
              { status := 400,
                error := some "Missing required parameters: text and voiceId",
                rateChecks := 1, logAttempts := 1 }
            else
              match env.upstream with
              | .throws _ =>
                { status := 500,
                  error := some "Unable to generate speech. Please try again.",
                  rateChecks := 1, logAttempts := 1, apiCalls := 1 }
              | .result ok =>
                if ok then { status := 200, rateChecks := 1, logAttempts := 1,
                             apiCalls := 1 }
                else
                  { status := 500,
                    error := some "Failed to generate audio. Please try again.",
                    rateChecks := 1, logAttempts := 1, apiCalls := 1 }

/-- Parsed JSON body of an ingestPoster request; `none` fields are absent
or falsy under the `!title || !filename || !bytes` test. -/
structure IngestBody where
  title : Option String
  filename : Option String
  bytes : Option (List Nat)
  deriving DecidableEq, Repr

/-- Outcome of a storage upload or database insert: success, or a client
error carrying the `message` field the handler reads. -/
inductive OpResult where
  | ok
  | fails (message : String)
  deriving DecidableEq, Repr

/-- Environment of one ingestPoster invocation: method, the
`auth.getUser()` result, whether the `user_roles` admin-row lookup found a
row, the parsed body (`Except.error` carries the message of a JSON parse
exception caught by the outer `catch`), and the storage-upload and
poster-insert outcomes. -/
structure IngestEnv where
  method : String
  authUser : Option String
  isAdmin : Bool
  body : Except String IngestBody
  upload : OpResult
  insert : OpResult
  deriving Repr

/-- Shallow embedding of the `Deno.serve` handler of
`supabase/functions/ingestPoster/index.ts`.  It authenticates, checks the
admin role, parses and validates the body, uploads the original image to
storage, and inserts the poster row; upload and insert errors are returned
with their own `message` as the 500 body, and the handler contains no
rate-limit or audit-log call. -/
def ingestHandler (env : IngestEnv) : HandlerOutcome :=
  if env.method = "OPTIONS" then { status := 200 }
  else
    match env.authUser with
    | none => { status := 401, error := some "Unauthorized" }
    | some _ =>
      if ¬ env.isAdmin then
        { status := 403, error := some "Forbidden - Admin access required" }
      else
        match env.body with
        | .error m => { status := 500, error := some m }
        | .ok b =>
          if b.title = none ∨ b.filename = none ∨ b.bytes = none then
            { status := 400, error := some "Missing required fields" }
          else
            match env.upload with
            | .fails m => { status := 500, error := some m, storageUploads := 1 }
            | .ok =>
              match env.insert with
              | .fails m =>
                { status := 500, error := some m, storageUploads := 1,
                  dbInserts := 1 }
              | .ok => { status := 200, storageUploads := 1, dbInserts := 1 }

/-- Demo request: unauthenticated text-to-speech call with a malformed
JSON body. -/
def ttsEnvNoAuthBadBody : TtsEnv :=
  { method := "POST", body := none, authUser := none, store := .rows [],
    now := 0, apiKey := none, upstream := .result true }

/-- Demo request: unauthenticated text-to-speech call with a well-formed
body. -/
def ttsEnvNoAuth : TtsEnv :=
  { method := "POST", body := some ⟨some "hello", some "v1"⟩,
    authUser := none, store := .rows [], now := 0, apiKey := none,
    upstream := .result true }

/-- Demo request: authenticated text-to-speech call whose upstream fetch
throws. -/
def ttsEnvUpstreamThrows : TtsEnv :=
  { method := "POST", body := some ⟨some "hi", some "v1"⟩,
    authUser := some "u1", store := .rows [], now := 0, apiKey := some "k",
    upstream := .throws "TypeError" }

/-- Demo request: authenticated text-to-speech call arriving when the
subject's window already holds the 20 allowed requests. -/
def ttsEnvWindowFull : TtsEnv :=
  { method := "POST", body := some ⟨some "hi", some "v1"⟩,
    authUser := some "u1",
    store := .rows (List.replicate 20 ⟨"u1", "text-to-speech", 95000⟩),
    now := 100000, apiKey := some "k", upstream := .result true }

/-- Demo request: authorized ingestPoster call whose storage upload fails
with a detailed error message. -/
def ingestEnvUploadFails : IngestEnv :=
  { method := "POST", authUser := some "admin-1", isAdmin := true,
    body := .ok ⟨some "Map of Lyon", some "lyon.jpg", some [7]⟩,
    upload := .fails "storage quota exceeded at /internal/tiles",
    insert := .ok }

/-- Demo request: fully authorized ingestPoster call that succeeds. -/
def ingestEnvOk : IngestEnv :=
  { method := "POST", authUser := some "admin-1", isAdmin := true,
    body := .ok ⟨some "Map", some "m.jpg", some [1]⟩, upload := .ok,
    insert := .ok }

/-! ## Canvas pipeline (src/components/RegistrationEditor.tsx) -/

/-- JavaScript `Math.round`, exactly: the floor of `q + 1/2` (round half
toward positive infinity). -/
def jsRound (q : ℚ) : ℤ := ⌊q + 1/2⌋

/-- The longest-side cap `MAX_IMAGE_DIMENSION` of RegistrationEditor. -/
def MAX_IMAGE_DIMENSION : ℕ := 2560

/-- Dimension computation of `resizeImageIfNeeded`: when either natural
dimension exceeds the cap, the larger side is set to the cap and the other
is `Math.round`-scaled by the same ratio; otherwise the dimensions are
kept. -/
def resizeDims (naturalWidth naturalHeight : ℕ) : ℕ × ℕ :=
  if MAX_IMAGE_DIMENSION < naturalWidth ∨ MAX_IMAGE_DIMENSION < naturalHeight then
    if naturalHeight < naturalWidth then
      (MAX_IMAGE_DIMENSION,
        (jsRound ((naturalHeight : ℚ) * MAX_IMAGE_DIMENSION / naturalWidth)).toNat)
    else
      ((jsRound ((naturalWidth : ℚ) * MAX_IMAGE_DIMENSION / naturalHeight)).toNat,
        MAX_IMAGE_DIMENSION)
  else (naturalWidth, naturalHeight)

/-- The per-pixel alpha of `removeBackground`:
`Math.round((1 - maskValue) * 255)`. -/
def segmentationAlpha (maskValue : ℚ) : ℤ := jsRound ((1 - maskValue) * 255)

/-- Assignment into a `Uint8ClampedArray` clamps to the byte range. -/
def clampByte (z : ℤ) : ℕ := (max 0 (min 255 z)).toNat

/-- The mask loop of `removeBackground`: for each mask index `i`, byte
`i * 4 + 3` of the output buffer is set to the clamped
`Math.round((1 - mask[i]) * 255)`. -/
def applyMaskAlpha (mask : List ℚ) (data : ℤ → ℕ) : ℤ → ℕ :=
  mask.enum.foldl
    (fun d p => fun j =>
      if j = (p.1 : ℤ) * 4 + 3 then clampByte (segmentationAlpha p.2) else d j)
    data

/-- A pixel buffer as the `ImageData` of the canvas API: dimensions plus
the flat RGBA byte array, modelled as a function from byte index to byte
value. -/
structure ImageData where
  width : Nat
  height : Nat
  data : Int → Nat

/-- A detected OCR text region of RegistrationEditor. -/
structure TextRegion where
  x : Int
  y : Int
  width : Int
  height : Int
  text : String

/-- The integers `a, a+1, ..., a+len-1` (empty when `len ≤ 0`), the index
sequence of a JavaScript `for (let v = a; v < a + len; v++)` loop. -/
def intRange (a len : Int) : List Int :=
  (List.range len.toNat).map (fun (i : Nat) => a + (i : Int))

/-- The `(dy, dx)` offsets of the nested sampling loops of
`inpaintRegion`, both ranging over `-margin .. margin` with `margin = 5`. -/
def marginOffsets : List (Int × Int) :=
  (intRange (-5) 11).flatMap (fun dy => (intRange (-5) 11).map (fun dx => (dy, dx)))

/-- The skip test `sx >= x && sx < x + width && sy >= y && sy < y + height`
of the sampling loop. -/
def insideRegion (x y w h sx sy : Int) : Bool :=
  x ≤ sx && sx < x + w && y ≤ sy && sy < y + h

/-- Negation of the bounds skip test
`sx < 0 || sy < 0 || sx >= imgWidth || sy >= imageData.height`. -/
def inBounds (img : ImageData) (sx sy : Int) : Bool :=
  0 ≤ sx && 0 ≤ sy && sx < (img.width : Int) && sy < (img.height : Int)

/-- Byte index `(sy * imgWidth + sx) * 4 + c` of channel `c` of pixel
`(sx, sy)`. -/
def byteIdx (imgWidth : Nat) (sx sy c : Int) : Int :=
  (sy * (imgWidth : Int) + sx) * 4 + c

/-- The sample coordinates `(sx, sy)` the inner loops of `inpaintRegion`
accumulate for pixel `(px, py)`: all offsets within the margin square
whose target is not inside the region being inpainted and is inside the
image bounds. -/
def sampleCoords (img : ImageData) (x y w h px py : Int) : List (Int × Int) :=
  (marginOffsets.map (fun d => (px + d.2, py + d.1))).filter
    (fun s => !(insideRegion x y w h s.1 s.2) && inBounds img s.1 s.2)

/-- The channel-`c` accumulator (`r`, `g` or `b`) of the sampling loop:
the sum of the channel bytes of the sampled coordinates, read from the
current buffer `d`. -/
def sampleSum (d : Int → Nat) (imgWidth : Nat) (coords : List (Int × Int))
    (c : Int) : Nat :=
  (coords.map (fun s => d (byteIdx imgWidth s.1 s.2 c))).sum

/-- `Math.round(r / count)` for natural `r` and positive natural `count`,
exactly: the numerator and denominator are doubled so that floor division
implements round-half-up. -/
def jsRoundDiv (r count : Nat) : Nat := (2 * r + count) / (2 * count)

/-- Pointwise update of a byte buffer, one `data[i] = v` assignment. -/
def updateByte (d : Int → Nat) (i : Int) (v : Nat) : Int → Nat :=
  fun j => if j = i then v else d j

/-- The body of the per-pixel loop of `inpaintRegion`: skip out-of-bounds
pixels, sample the surrounding ring, and when at least one sample exists
overwrite the pixel's r, g, b with the rounded channel averages and its
alpha with 255. -/
def inpaintPixel (img : ImageData) (x y w h : Int) (d : Int → Nat)
    (py px : Int) : Int → Nat :=
  if inBounds img px py then
    let coords := sampleCoords img x y w h px py
    let count := coords.length
    if 0 < count then
      let idx := (py * (img.width : Int) + px) * 4
      updateByte
        (updateByte
          (updateByte
            (updateByte d idx (jsRoundDiv (sampleSum d img.width coords 0) count))
            (idx + 1) (jsRoundDiv (sampleSum d img.width coords 1) count))
          (idx + 2) (jsRoundDiv (sampleSum d img.width coords 2) count))
        (idx + 3) 255
    else d
  else d

/-- Iteration order of the two outer loops of `inpaintRegion`: rows
`y ≤ py < y + height`, and within each row columns `x ≤ px < x + width`. -/
def regionCoords (x y w h : Int) : List (Int × Int) :=
  (intRange y h).flatMap (fun py => (intRange x w).map (fun px => (py, px)))

/-- Shallow embedding of `inpaintRegion(imageData, x, y, width, height)`:
the per-pixel loop folded over the region's pixel coordinates, mutating
the byte buffer in place. -/
def inpaintRegion (img : ImageData) (x y w h : Int) : ImageData :=
  { img with
    data :=
      (regionCoords x y w h).foldl
        (fun d p => inpaintPixel img x y w h d p.1 p.2) img.data }

/-- The region loop of `handleRemoveText`:
`textRegions.forEach(region => inpaintRegion(workingImageData, ...))`,
each call operating on the buffer the previous call produced. -/
def inpaintAllRegions (img : ImageData) (regions : List TextRegion) :
    ImageData :=
  regions.foldl (fun im r => inpaintRegion im r.x r.y r.width r.height) img

/-- Stated from the claim's wording, for comparison with the code: the
neighbor pixels within radius 5 of `(px, py)` that lie outside every
detected text region and inside the image bounds. -/
def claimNeighborCoords (img : ImageData) (regions : List TextRegion)
    (px py : Int) : List (Int × Int) :=
  (marginOffsets.map (fun d => (px + d.2, py + d.1))).filter
    (fun s =>
      (regions.all fun r => !(insideRegion r.x r.y r.width r.height s.1 s.2)) &&
        inBounds img s.1 s.2)

/-- Stated from the claim's wording: the per-channel average over the
neighbors outside any text region, computed on the original image. -/
def claimInpaintValue (img : ImageData) (regions : List TextRegion)
    (px py c : Int) : Nat :=
  jsRoundDiv (sampleSum img.data img.width (claimNeighborCoords img regions px py) c)
    (claimNeighborCoords img regions px py).length

/-- Demo 12-by-1 image for the inpainting counterexample: pixel 1 is
white (255, 255, 255), every other byte 0. -/
def demoImage : ImageData :=
  ⟨12, 1, fun i => if i = 4 ∨ i = 5 ∨ i = 6 then 255 else 0⟩

/-- Two adjacent one-pixel text regions on `demoImage`. -/
def demoRegions : List TextRegion :=
  [⟨0, 0, 1, 1, "a"⟩, ⟨1, 0, 1, 1, "b"⟩]

/-! ## Overlay stacking order (src/pages/OverlayCreator.tsx) -/

/-- The `handleSave` max-z query: overlays of the base map ordered by
`z_index` descending, `limit(1)`, `maybeSingle()` — the maximum persisted
`z_index`, or `none` when the base map has no overlays. -/
def maxZQuery (zs : List Int) : Option Int := zs.max?

/-- JavaScript `maxZData?.z_index || -1`: `-1` when no row exists, and
also when the stored `z_index` is `0`, because `0` is falsy under `||`. -/
def zOrMinusOne (mz : Option Int) : Int :=
  match mz with
  | none => -1
  | some z => if z = 0 then -1 else z

/-- The stacking order `handleSave` assigns to the new overlay:
`(maxZData?.z_index || -1) + 1`. -/
def nextZIndex (zs : List Int) : Int := zOrMinusOne (maxZQuery zs) + 1

/-- C3: for a subject, an endpoint with a configured policy `(m, w)` and a
reachable store, `checkRateLimit` counts exactly the log rows for that
subject and endpoint with timestamp at least `now - w` (in milliseconds),
and returns `allowed = (count < m)` and `remaining = max 0 (m - count)`;
older entries are never counted. -/
theorem checkRateLimit_counts_window (u ep : String) (cfg : RateLimitConfig)
    (entries : List RequestLogEntry) (now : Int)
    (hcfg : RATE_LIMITS ep = some cfg) :
    checkRateLimit u ep (.rows entries) now =
      { allowed :=
          decide ((specWindowCount u ep entries now cfg.window : Int) < cfg.requests),
        remaining :=
          max 0 (cfg.requests - (specWindowCount u ep entries now cfg.window : Int)) } := by
  have hlen :
      (((entries.filter (fun e => e.userId == u)).filter
          (fun e => e.endpoint == ep)).filter
          (fun e => decide (now - cfg.window * 1000 ≤ e.createdAt))).length
        = specWindowCount u ep entries now cfg.window := by
    rw [specWindowCount, List.countP_eq_length_filter, List.filter_filter,
      List.filter_filter]
    congr 1
    refine List.filter_congr fun e _ => ?_
    cases hu : e.userId == u <;> cases he : e.endpoint == ep <;>
      cases hc : decide (now - cfg.window * 1000 ≤ e.createdAt) <;> simp [hu, he, hc]
  simp only [checkRateLimit, hcfg, hlen]

/-- Evaluation of the C3 theorem on a concrete store: endpoint
`historian-qa` has policy `(10, 60)`, and of three entries for the subject
only the two inside the 60-second window are counted. -/
theorem checkRateLimit_counts_window_witness :
    checkRateLimit "alice" "historian-qa"
        (.rows [⟨"alice", "historian-qa", 0⟩,
                ⟨"alice", "historian-qa", 70000⟩,
                ⟨"alice", "historian-qa", 99000⟩,
                ⟨"bob", "historian-qa", 99500⟩]) 100000
      = { allowed := true, remaining := 8 } := by
  rw [checkRateLimit_counts_window "alice" "historian-qa" ⟨10, 60⟩ _ 100000 rfl]
  rfl

/-- C5: an endpoint without a policy entry is never blocked:
`checkRateLimit` returns `allowed = true, remaining = 999` whatever the
store holds. -/
theorem checkRateLimit_unknown_endpoint (u ep : String) (q : QueryOutcome)
    (now : Int) (h : RATE_LIMITS ep = none) :
    checkRateLimit u ep q now = { allowed := true, remaining := 999 } := by
  simp [checkRateLimit, h]

/-- Evaluation of the C5 theorem: the endpoint `tile-search` has no policy
entry and any request to it is admitted with `remaining = 999`. -/
theorem checkRateLimit_unknown_endpoint_witness :
    checkRateLimit "alice" "tile-search"
        (.rows [⟨"alice", "tile-search", 99000⟩]) 100000
      = { allowed := true, remaining := 999 } :=
  checkRateLimit_unknown_endpoint "alice" "tile-search" _ 100000 rfl

/-- C6: when the store query reports an error or throws, `checkRateLimit`
returns `allowed = true` (fail-open), and `logRequest` never propagates a
failure to its caller: every insert outcome, including a thrown one, yields
a normal (`Except.ok`) return. -/
theorem rateLimit_fail_open_and_log_swallowed :
    (∀ (u ep name : String) (now : Int),
        (checkRateLimit u ep (.errorField name) now).allowed = true) ∧
    (∀ (u ep name : String) (now : Int),
        (checkRateLimit u ep (.throws name) now).allowed = true) ∧
    (∀ (u ep : String) (store : List RequestLogEntry) (ins : InsertOutcome),
        ∃ s, logRequest u ep store ins = .ok s) := by
  refine ⟨fun u ep name now => ?_, fun u ep name now => ?_,
    fun u ep store ins => ?_⟩
  · rcases h : RATE_LIMITS ep with _ | cfg <;> simp [checkRateLimit, h]
  · rcases h : RATE_LIMITS ep with _ | cfg <;> simp [checkRateLimit, h]
  · cases ins <;> exact ⟨_, rfl⟩

/-- C1 counterexample: an unauthenticated text-to-speech request whose
body is not valid JSON is answered with status 500, not 401, because the
handler parses the body before authenticating and the parse exception
lands in the outer catch. -/
theorem tts_unauth_malformed_body_not_401 :
    (ttsHandler ttsEnvNoAuthBadBody).status = 500 ∧
    (ttsHandler ttsEnvNoAuthBadBody).status ≠ 401 :=
  ⟨rfl, by decide⟩

/-- C1 (amended): an unauthenticated non-preflight request triggers no
log write and no upstream call in either handler; ingestPoster always
answers 401, and text-to-speech answers 401 whenever the body parses
(and 500 when it does not, since the body is parsed before
authentication). -/
theorem unauthenticated_requests_rejected :
    (∀ env : TtsEnv, env.method ≠ "OPTIONS" → env.authUser = none →
      (ttsHandler env).logAttempts = 0 ∧ (ttsHandler env).apiCalls = 0 ∧
      (∀ b, env.body = some b → (ttsHandler env).status = 401) ∧
      (env.body = none → (ttsHandler env).status = 500)) ∧
    (∀ env : IngestEnv, env.method ≠ "OPTIONS" → env.authUser = none →
      (ingestHandler env).status = 401 ∧ (ingestHandler env).logAttempts = 0 ∧
      (ingestHandler env).rateChecks = 0 ∧
      (ingestHandler env).storageUploads = 0 ∧
      (ingestHandler env).dbInserts = 0 ∧ (ingestHandler env).apiCalls = 0) := by
  constructor
  · intro env hm hu
    rcases hb : env.body with _ | b <;>
      simp [ttsHandler, hm, hu, hb]
  · intro env hm hu
    simp [ingestHandler, hm, hu]

/-- Evaluation of the amended C1 theorem: a well-formed but
unauthenticated text-to-speech request gets status 401. -/
theorem unauthenticated_requests_rejected_witness :
    (ttsHandler ttsEnvNoAuth).status = 401 :=
  (unauthenticated_requests_rejected.1 ttsEnvNoAuth
      (by decide) rfl).2.2.1 ⟨some "hello", some "v1"⟩ rfl

/-- C2 counterexample: when the storage upload fails, ingestPoster
returns the upload error's own message text as the 500 response body,
exposing upstream error detail to the caller. -/
theorem ingest_error_message_leaked :
    (ingestHandler ingestEnvUploadFails).status = 500 ∧
    (ingestHandler ingestEnvUploadFails).error
      = some "storage quota exceeded at /internal/tiles" :=
  ⟨rfl, rfl⟩

/-- C2 (amended): the text-to-speech handler answers any upstream failure
(thrown fetch or non-ok response) with status 500 and a fixed generic
body that does not depend on the failure, while the ingestPoster handler
answers a failed upload or insert with status 500 and the failure's own
message text as the body. -/
theorem upstream_failure_responses :
    (∀ (env : TtsEnv) (b : TtsBody) (uid key name : String),
      env.method ≠ "OPTIONS" → env.body = some b → env.authUser = some uid →
      (checkRateLimit uid "text-to-speech" env.store env.now).allowed = true →
      env.apiKey = some key → b.text ≠ none → b.voiceId ≠ none →
      env.upstream = .throws name →
      (ttsHandler env).status = 500 ∧
      (ttsHandler env).error
        = some "Unable to generate speech. Please try again.") ∧
    (∀ (env : TtsEnv) (b : TtsBody) (uid key : String),
      env.method ≠ "OPTIONS" → env.body = some b → env.authUser = some uid →
      (checkRateLimit uid "text-to-speech" env.store env.now).allowed = true →
      env.apiKey = some key → b.text ≠ none → b.voiceId ≠ none →
      env.upstream = .result false →
      (ttsHandler env).status = 500 ∧
      (ttsHandler env).error
        = some "Failed to generate audio. Please try again.") ∧
    (∀ (env : IngestEnv) (b : IngestBody) (uid m : String),
      env.method ≠ "OPTIONS" → env.authUser = some uid → env.isAdmin = true →
      env.body = .ok b → b.title ≠ none → b.filename ≠ none →
      b.bytes ≠ none → env.upload = .fails m →
      (ingestHandler env).status = 500 ∧ (ingestHandler env).error = some m) ∧
    (∀ (env : IngestEnv) (b : IngestBody) (uid m : String),
      env.method ≠ "OPTIONS" → env.authUser = some uid → env.isAdmin = true →
      env.body = .ok b → b.title ≠ none → b.filename ≠ none →
      b.bytes ≠ none → env.upload = .ok → env.insert = .fails m →
      (ingestHandler env).status = 500 ∧ (ingestHandler env).error = some m) := by
  refine ⟨?_, ?_, ?_, ?_⟩
  · intro env b uid key name hm hb hu hr hk ht hv hup
    simp [ttsHandler, hm, hb, hu, hr, hk, ht, hv, hup]
  · intro env b uid key hm hb hu hr hk ht hv hup
    simp [ttsHandler, hm, hb, hu, hr, hk, ht, hv, hup]
  · intro env b uid m hm hu ha hb ht hf hby hup
    simp [ingestHandler, hm, hu, ha, hb, ht, hf, hby, hup]
  · intro env b uid m hm hu ha hb ht hf hby hup hins
    simp [ingestHandler, hm, hu, ha, hb, ht, hf, hby, hup, hins]

/-- Evaluation of the amended C2 theorem: a thrown upstream fetch in
text-to-speech produces the fixed generic 500 body. -/
theorem upstream_failure_responses_witness :
    (ttsHandler ttsEnvUpstreamThrows).error
      = some "Unable to generate speech. Please try again." :=
  (upstream_failure_responses.1 ttsEnvUpstreamThrows
      ⟨some "hi", some "v1"⟩ "u1" "k" "TypeError"
      (by decide) rfl rfl rfl rfl (by decide) (by decide) rfl).2

/-- C4 counterexample: a fully authorized ingestPoster request performs
its storage upload and database insert without the rate limiter ever
being consulted. -/
theorem ingest_upstream_without_admission :
    (ingestHandler ingestEnvOk).storageUploads = 1 ∧
    (ingestHandler ingestEnvOk).dbInserts = 1 ∧
    (ingestHandler ingestEnvOk).rateChecks = 0 :=
  ⟨rfl, rfl, rfl⟩

/-- C4 (amended): only the text-to-speech handler performs admission
control: there, a denied rate check yields exactly a 429 response with
`remaining: 0` and no log write or upstream call, and any invocation that
reached the upstream API consulted the rate limiter; the ingestPoster
handler never consults the rate limiter on any path. -/
theorem admission_control_text_to_speech_only :
    (∀ (env : TtsEnv) (b : TtsBody) (uid : String),
      env.method ≠ "OPTIONS" → env.body = some b → env.authUser = some uid →
      (checkRateLimit uid "text-to-speech" env.store env.now).allowed = false →
      ttsHandler env = { status := 429,
                         error := some "Rate limit exceeded. Please try again later.",
                         remaining := some 0, rateChecks := 1 }) ∧
    (∀ env : TtsEnv, 1 ≤ (ttsHandler env).apiCalls →
      (ttsHandler env).rateChecks = 1) ∧
    (∀ env : IngestEnv, (ingestHandler env).rateChecks = 0) := by
  refine ⟨?_, ?_, ?_⟩
  · intro env b uid hm hb hu hr
    simp [ttsHandler, hm, hb, hu, hr]
  · intro env h
    rcases env with ⟨m, bd, au, st, n, ak, up⟩
    by_cases hm : m = "OPTIONS"
    · simp [ttsHandler, hm] at h
    · rcases bd with _ | b
      · simp [ttsHandler, hm] at h
      · rcases au with _ | uid
        · simp [ttsHandler, hm] at h
        · by_cases hr : (checkRateLimit uid "text-to-speech" st n).allowed
          · rcases hk : ak with _ | key
            · simp [ttsHandler, hm, hr, hk]
            · by_cases hv : b.text = none ∨ b.voiceId = none
              · simp [ttsHandler, hm, hr, hk, hv]
              · rcases hup : up with nm | ok
                · simp [ttsHandler, hm, hr, hk, hv, hup]
                · cases ok <;> simp [ttsHandler, hm, hr, hk, hv, hup]
          · simp [ttsHandler, hm, hr] at h
  · intro env
    rcases env with ⟨m, au, adm, bd, up, ins⟩
    by_cases hm : m = "OPTIONS"
    · simp [ingestHandler, hm]
    · rcases au with _ | uid
      · simp [ingestHandler, hm]
      · cases adm
        · simp [ingestHandler, hm]
        · rcases bd with msg | b
          · simp [ingestHandler, hm]
          · by_cases hv : b.title = none ∨ b.filename = none ∨ b.bytes = none
            · simp [ingestHandler, hm, hv]
            · rcases up with _ | msg
              · rcases ins with _ | msg <;> simp [ingestHandler, hm, hv]
              · simp [ingestHandler, hm, hv]

/-- Evaluation of the amended C4 theorem: with the text-to-speech window
already holding its 20 allowed requests, the handler answers 429 with
`remaining: 0` and performs no upstream call. -/
theorem admission_control_witness :
    ttsHandler ttsEnvWindowFull
      = { status := 429,
          error := some "Rate limit exceeded. Please try again later.",
          remaining := some 0, rateChecks := 1 } :=
  admission_control_text_to_speech_only.1 ttsEnvWindowFull
    ⟨some "hi", some "v1"⟩ "u1" (by decide) rfl rfl (by decide)

/-- The rounded rescale of a side by its own length is the cap itself. -/
theorem jsRound_self_ratio (a : ℕ) (ha : 0 < a) :
    jsRound ((a : ℚ) * 2560 / a) = 2560 := by
  have ha' : (a : ℚ) ≠ 0 := by positivity
  rw [jsRound, mul_comm, mul_div_assoc, div_self ha', mul_one]
  norm_num

/-- C9: when a natural dimension exceeds the cap of 2560, the longest
side becomes exactly 2560 and the other side becomes
`Math.round(other * 2560 / longest)`; an image within the cap keeps its
dimensions; in particular 4000 by 2000 resizes to exactly 2560 by 1280. -/
theorem resize_preserves_aspect_under_cap :
    (∀ w h : ℕ, 2560 < w ∨ 2560 < h →
      (h ≤ w → resizeDims w h = (2560, (jsRound ((h : ℚ) * 2560 / w)).toNat)) ∧
      (w ≤ h → resizeDims w h = ((jsRound ((w : ℚ) * 2560 / h)).toNat, 2560))) ∧
    (∀ w h : ℕ, w ≤ 2560 → h ≤ 2560 → resizeDims w h = (w, h)) ∧
    resizeDims 4000 2000 = (2560, 1280) := by
  refine ⟨fun w h hcap => ⟨fun hle => ?_, fun hle => ?_⟩, fun w h hw hh => ?_, ?_⟩
  · rcases lt_or_eq_of_le hle with hlt | heq
    · simp [resizeDims, MAX_IMAGE_DIMENSION, hcap, hlt]
    · subst heq
      have hc : 2560 < h := by rcases hcap with hc | hc <;> omega
      have h0 : 0 < h := by omega
      simp [resizeDims, MAX_IMAGE_DIMENSION, hc, jsRound_self_ratio h h0]
  · have hnlt : ¬ h < w := by omega
    simp [resizeDims, MAX_IMAGE_DIMENSION, hcap, hnlt]
  · have : ¬ (2560 < w ∨ 2560 < h) := by omega
    simp [resizeDims, MAX_IMAGE_DIMENSION, this]
  · have h1 : jsRound ((2000 : ℚ) * 2560 / 4000) = 1280 := by
      rw [jsRound]; norm_num
    simp [resizeDims, MAX_IMAGE_DIMENSION, h1]

/-- Evaluation of the C9 theorem: a 4000 by 2000 image exceeds the cap
and is resized with its longest side at 2560. -/
theorem resize_preserves_aspect_under_cap_witness :
    resizeDims 4000 2000 = (2560, (jsRound ((2000 : ℚ) * 2560 / 4000)).toNat) :=
  (resize_preserves_aspect_under_cap.1 4000 2000 (Or.inl (by norm_num))).1
    (by norm_num)

/-- Frame property of the mask loop: a byte whose index is not the alpha
byte of any processed mask entry is left unchanged. -/
theorem applyMaskAlpha_frame (ps : List (ℕ × ℚ)) (d : ℤ → ℕ) (j : ℤ)
    (hj : ∀ p ∈ ps, j ≠ (p.1 : ℤ) * 4 + 3) :
    ps.foldl
      (fun d p => fun j =>
        if j = (p.1 : ℤ) * 4 + 3 then clampByte (segmentationAlpha p.2) else d j)
      d j = d j := by
  induction ps generalizing d with
  | nil => rfl
  | cons p ps ih =>
    rw [List.foldl_cons, ih _ (fun q hq => hj q (List.mem_cons_of_mem p hq))]
    simp [hj p (List.mem_cons_self p ps)]

/-- The mask loop writes the clamped alpha of entry `i` at byte
`i * 4 + 3`, for the enumeration starting at any index. -/
theorem applyMaskAlpha_go (mask : List ℚ) (n : ℕ) (d : ℤ → ℕ) (i : ℕ)
    (m : ℚ) (hm : mask.get? i = some m) :
    (mask.enumFrom n).foldl
      (fun d p => fun j =>
        if j = (p.1 : ℤ) * 4 + 3 then clampByte (segmentationAlpha p.2) else d j)
      d (((n + i : ℕ) : ℤ) * 4 + 3) = clampByte (segmentationAlpha m) := by
  induction mask generalizing n d i with
  | nil => simp at hm
  | cons x xs ih =>
    cases i with
    | zero =>
      simp only [List.get?] at hm
      injection hm with hm
      subst hm
      have hcons : List.enumFrom n (x :: xs) = (n, x) :: List.enumFrom (n + 1) xs :=
        rfl
      rw [hcons, List.foldl_cons, applyMaskAlpha_frame]
      · simp
      · intro p hp hcontra
        have h1 : n + 1 ≤ p.1 := (List.mem_enumFrom hp).1
        omega
    | succ i =>
      simp only [List.get?] at hm
      have hn : ((n + (i + 1) : ℕ) : ℤ) = (((n + 1) + i : ℕ) : ℤ) := by
        push_cast; omega
      rw [hn]
      exact ih (n + 1) _ i hm

/-- The clamp is the identity on the byte range. -/
theorem clampByte_of_mem (z : ℤ) (h0 : 0 ≤ z) (h255 : z ≤ 255) :
    clampByte z = z.toNat := by
  rw [clampByte]
  omega

/-- For a mask value between 0 and 1, the rounded alpha lies in the byte
range. -/
theorem segmentationAlpha_mem (m : ℚ) (h0 : 0 ≤ m) (h1 : m ≤ 1) :
    0 ≤ segmentationAlpha m ∧ segmentationAlpha m ≤ 255 := by
  constructor
  · rw [segmentationAlpha, jsRound]
    rw [Int.le_floor]
    push_cast
    nlinarith
  · rw [segmentationAlpha, jsRound]
    have hq : ((1 : ℚ) - m) * 255 + 1/2 < 256 := by nlinarith
    have hlt : ⌊((1 : ℚ) - m) * 255 + 1/2⌋ < (256 : ℤ) := by
      apply Int.floor_lt.2
      push_cast
      linarith
    omega

/-- C8: the mask loop of background segmentation sets the alpha byte of
pixel `i` to `Math.round((1 - mask[i]) * 255)` for every pixel the mask
covers; in particular a mask value of 0 gives alpha 255, 1 gives 0, and
1/2 gives 128. -/
theorem segmentation_alpha_formula :
    (∀ (mask : List ℚ) (data : ℤ → ℕ) (i : ℕ) (m : ℚ),
      mask.get? i = some m → 0 ≤ m → m ≤ 1 →
      applyMaskAlpha mask data ((i : ℤ) * 4 + 3) = (segmentationAlpha m).toNat) ∧
    segmentationAlpha 0 = 255 ∧ segmentationAlpha 1 = 0 ∧
    segmentationAlpha (1/2) = 128 := by
  refine ⟨fun mask data i m hm h0 h1 => ?_, ?_, ?_, ?_⟩
  · have hi : ((i : ℤ)) * 4 + 3 = (((0 + i : ℕ) : ℤ)) * 4 + 3 := by push_cast; ring
    rw [applyMaskAlpha, List.enum, hi, applyMaskAlpha_go mask 0 data i m hm]
    obtain ⟨hl, hr⟩ := segmentationAlpha_mem m h0 h1
    exact clampByte_of_mem _ hl hr
  · rw [segmentationAlpha, jsRound]; norm_num
  · rw [segmentationAlpha, jsRound]; norm_num
  · rw [segmentationAlpha, jsRound]; norm_num

/-- Evaluation of the C8 theorem: a mask value of 1/2 writes alpha 128. -/
theorem segmentation_alpha_formula_witness :
    applyMaskAlpha [1/2] (fun _ => 0) 3 = 128 := by
  have h := segmentation_alpha_formula.1 [1/2] (fun _ => 0) 0 (1/2) rfl
    (by norm_num) (by norm_num)
  have h128 : segmentationAlpha (1/2) = 128 := by
    rw [segmentationAlpha, jsRound]; norm_num
  exact h.trans (by rw [h128]; rfl)

/-- C10: the stacking order `handleSave` computes duplicates an existing
overlay's `z_index` when the current maximum is 0, because
`maxZData?.z_index || -1` treats the stored value 0 as falsy: with one
persisted overlay at `z_index = 0`, the new overlay also receives 0
instead of the intended 1. -/
theorem overlay_zindex_duplicated_at_zero :
    nextZIndex [0] = 0 ∧ (0 : Int) ∈ [(0 : Int)] ∧
    ¬ (∀ z ∈ [(0 : Int)], z < nextZIndex [0]) ∧ nextZIndex [] = 0 := by
  refine ⟨rfl, by decide, ?_, rfl⟩
  intro hall
  have := hall 0 (by decide)
  simp [nextZIndex, maxZQuery, zOrMinusOne] at this

theorem mem_intRange {a len t : Int} :
    t ∈ intRange a len ↔ a ≤ t ∧ t < a + (len.toNat : Int) := by
  simp only [intRange, List.mem_map, List.mem_range]
  constructor
  · rintro ⟨i, hi, rfl⟩
    constructor <;> omega
  · intro h
    refine ⟨(t - a).toNat, by omega, by omega⟩

theorem intRange_nodup (a len : Int) : (intRange a len).Nodup := by
  have hinj : Function.Injective (fun (i : Nat) => a + (i : Int)) := by
    intro i j hij
    dsimp only at hij
    omega
  exact List.Nodup.map hinj (List.nodup_range _)

theorem mem_regionCoords {x y w h : Int} {p : Int × Int} :
    p ∈ regionCoords x y w h ↔
      (y ≤ p.1 ∧ p.1 < y + (h.toNat : Int)) ∧
        (x ≤ p.2 ∧ p.2 < x + (w.toNat : Int)) := by
  rcases p with ⟨py, px⟩
  simp only [regionCoords, List.mem_flatMap, List.mem_map, mem_intRange,
    Prod.mk.injEq]
  constructor
  · rintro ⟨py2, hpy, px2, hpx, rfl, rfl⟩
    exact ⟨hpy, hpx⟩
  · rintro ⟨hpy, hpx⟩
    exact ⟨py, hpy, px, hpx, rfl, rfl⟩

theorem regionCoords_nodup (x y w h : Int) : (regionCoords x y w h).Nodup := by
  rw [regionCoords, List.nodup_flatMap]
  constructor
  · intro py hpy
    have hinj : Function.Injective (fun px : Int => (py, px)) := by
      intro i j hij
      simpa using hij
    exact List.Nodup.map hinj (intRange_nodup x w)
  · have hnd : List.Pairwise (fun a b : Int => a ≠ b) (intRange y h) :=
      intRange_nodup y h
    refine hnd.imp ?_
    intro a b hab q hqa hqb
    simp only [List.mem_map] at hqa hqb
    obtain ⟨pa, hpa, rfl⟩ := hqa
    obtain ⟨pb, hpb, h2⟩ := hqb
    exact hab (by injection h2 with h2a h2b; exact h2a.symm)

theorem byteIdx_inj {W : Nat} {x1 y1 x2 y2 c1 c2 : Int}
    (hx1 : 0 ≤ x1) (hx1W : x1 < (W : Int)) (hx2 : 0 ≤ x2) (hx2W : x2 < (W : Int))
    (hc1 : 0 ≤ c1) (hc14 : c1 < 4) (hc2 : 0 ≤ c2) (hc24 : c2 < 4)
    (heq : byteIdx W x1 y1 c1 = byteIdx W x2 y2 c2) :
    x1 = x2 ∧ y1 = y2 ∧ c1 = c2 := by
  rw [byteIdx, byteIdx] at heq
  have hW : (0 : Int) < (W : Int) := lt_of_le_of_lt hx1 hx1W
  have hA : y1 * (W : Int) + x1 = y2 * (W : Int) + x2 ∧ c1 = c2 := by
    generalize hg1 : y1 * (W : Int) + x1 = A1 at heq
    generalize hg2 : y2 * (W : Int) + x2 = A2 at heq
    constructor <;> omega
  obtain ⟨hA, hc⟩ := hA
  have hx : x1 = x2 := by
    have h1 : (x1 + (W : Int) * y1) % (W : Int) = x1 := by
      rw [Int.add_mul_emod_self_left, Int.emod_eq_of_lt hx1 hx1W]
    have h2 : (x2 + (W : Int) * y2) % (W : Int) = x2 := by
      rw [Int.add_mul_emod_self_left, Int.emod_eq_of_lt hx2 hx2W]
    have hA2 : x1 + (W : Int) * y1 = x2 + (W : Int) * y2 := by
      linear_combination hA
    rw [← h1, ← h2, hA2]
  refine ⟨hx, ?_, hc⟩
  subst hx
  have hmul : y1 * (W : Int) = y2 * (W : Int) := by omega
  exact mul_right_cancel₀ (by omega) hmul


theorem mem_sampleCoords {img : ImageData} {x y w h px py : Int}
    {s : Int × Int} (hs : s ∈ sampleCoords img x y w h px py) :
    insideRegion x y w h s.1 s.2 = false ∧ inBounds img s.1 s.2 = true := by
  rw [sampleCoords, List.mem_filter] at hs
  have h2 := hs.2
  simp only [Bool.and_eq_true, Bool.not_eq_true'] at h2
  exact h2

theorem inpaintPixel_frame (img : ImageData) (x y w h : Int) (d : Int → Nat)
    (py px j : Int)
    (hj : inBounds img px py = true → ∀ c : Int, 0 ≤ c → c < 4 →
      j ≠ (py * (img.width : Int) + px) * 4 + c) :
    inpaintPixel img x y w h d py px j = d j := by
  rw [inpaintPixel]
  by_cases hb : inBounds img px py
  · have h0 : j ≠ (py * (img.width : Int) + px) * 4 := by
      have := hj hb 0 (by norm_num) (by norm_num)
      simpa using this
    have h1 := hj hb 1 (by norm_num) (by norm_num)
    have h2 := hj hb 2 (by norm_num) (by norm_num)
    have h3 := hj hb 3 (by norm_num) (by norm_num)
    simp only [hb, if_true]
    by_cases hc : 0 < (sampleCoords img x y w h px py).length
    · simp only [hc, if_true, updateByte, if_neg h3, if_neg h2, if_neg h1,
        if_neg h0]
    · simp only [hc, if_false]
  · simp only [Bool.not_eq_true] at hb
    simp only [hb, Bool.false_eq_true, if_false]

theorem inpaintFold_frame (img : ImageData) (x y w h : Int)
    (L : List (Int × Int)) (d : Int → Nat) (j : Int)
    (hj : ∀ p ∈ L, inBounds img p.2 p.1 = true → ∀ c : Int, 0 ≤ c → c < 4 →
      j ≠ (p.1 * (img.width : Int) + p.2) * 4 + c) :
    (L.foldl (fun d p => inpaintPixel img x y w h d p.1 p.2) d) j = d j := by
  induction L generalizing d with
  | nil => rfl
  | cons p L ih =>
    rw [List.foldl_cons,
      ih _ (fun q hq => hj q (List.mem_cons_of_mem p hq)),
      inpaintPixel_frame img x y w h d p.1 p.2 j
        (hj p (List.mem_cons_self p L))]

theorem sampleSum_congr {d1 d2 : Int → Nat} {W : Nat}
    {coords : List (Int × Int)} {c : Int}
    (h : ∀ s ∈ coords, d1 (byteIdx W s.1 s.2 c) = d2 (byteIdx W s.1 s.2 c)) :
    sampleSum d1 W coords c = sampleSum d2 W coords c := by
  rw [sampleSum, sampleSum]
  exact congrArg List.sum (List.map_congr_left h)


theorem inBounds_iff {img : ImageData} {sx sy : Int} :
    inBounds img sx sy = true ↔
      0 ≤ sx ∧ 0 ≤ sy ∧ sx < (img.width : Int) ∧ sy < (img.height : Int) := by
  simp [inBounds, Bool.and_eq_true, decide_eq_true_iff, and_assoc]

theorem insideRegion_iff {x y w h sx sy : Int} :
    insideRegion x y w h sx sy = true ↔
      x ≤ sx ∧ sx < x + w ∧ y ≤ sy ∧ sy < y + h := by
  simp [insideRegion, Bool.and_eq_true, decide_eq_true_iff, and_assoc]

/-- C7 (amended): one `inpaintRegion` call replaces each pixel of the
region's bounding box that lies inside the image bounds and has at least
one sample (a pixel within the 5-pixel margin square that is outside the
region being inpainted - not outside every text region - and inside the
image bounds) by the per-channel rounded average of those samples as read
from the buffer the call started from, and sets its alpha byte to 255;
`handleRemoveText` runs such calls sequentially over the detected
regions, each on the previous call's output. -/
theorem inpaintRegion_pixel (img : ImageData) (x y w h px py : Int)
    (hin : insideRegion x y w h px py = true)
    (hb : inBounds img px py = true)
    (hne : (sampleCoords img x y w h px py).length ≠ 0) :
    (∀ c : Int, 0 ≤ c → c < 3 →
      (inpaintRegion img x y w h).data ((py * (img.width : Int) + px) * 4 + c)
        = jsRoundDiv
            (sampleSum img.data img.width (sampleCoords img x y w h px py) c)
            (sampleCoords img x y w h px py).length) ∧
    (inpaintRegion img x y w h).data ((py * (img.width : Int) + px) * 4 + 3)
      = 255 := by
  obtain ⟨hin1, hin2, hin3, hin4⟩ := insideRegion_iff.mp hin
  obtain ⟨hb1, hb2, hb3, hb4⟩ := inBounds_iff.mp hb
  have hmem : ((py, px) : Int × Int) ∈ regionCoords x y w h := by
    rw [mem_regionCoords]
    refine ⟨⟨hin3, by omega⟩, ⟨hin1, by omega⟩⟩
  obtain ⟨L1, L2, hsplit⟩ := List.append_of_mem hmem
  have hnotin : ((py, px) : Int × Int) ∉ L2 := by
    have hnd := regionCoords_nodup x y w h
    rw [hsplit] at hnd
    exact (List.nodup_cons.mp (List.Nodup.of_append_right hnd)).1
  have hfold : (inpaintRegion img x y w h).data =
      L2.foldl (fun d p => inpaintPixel img x y w h d p.1 p.2)
        (inpaintPixel img x y w h
          (L1.foldl (fun d p => inpaintPixel img x y w h d p.1 p.2) img.data)
          py px) := by
    show (regionCoords x y w h).foldl
        (fun d p => inpaintPixel img x y w h d p.1 p.2) img.data = _
    rw [hsplit, List.foldl_append, List.foldl_cons]
  have hreads : ∀ s ∈ sampleCoords img x y w h px py, ∀ c : Int,
      0 ≤ c → c < 4 →
      (L1.foldl (fun d p => inpaintPixel img x y w h d p.1 p.2) img.data)
          (byteIdx img.width s.1 s.2 c)
        = img.data (byteIdx img.width s.1 s.2 c) := by
    intro s hs c hc0 hc4
    obtain ⟨hsout, hsb⟩ := mem_sampleCoords hs
    obtain ⟨hs1, hs2, hs3, hs4⟩ := inBounds_iff.mp hsb
    apply inpaintFold_frame
    intro p hp hpb c2 hc20 hc24 hcontra
    have hpmem : p ∈ regionCoords x y w h := by
      rw [hsplit]
      exact List.mem_append_left _ hp
    rw [mem_regionCoords] at hpmem
    obtain ⟨hp1, hp2, hp3, hp4⟩ := inBounds_iff.mp hpb
    obtain ⟨he1, he2, he3⟩ :=
      byteIdx_inj hs1 hs3 hp1 hp3 hc0 hc4 hc20 hc24 hcontra
    have hpin : insideRegion x y w h s.1 s.2 = true := by
      rw [insideRegion_iff]
      rw [he1, he2]
      refine ⟨hpmem.2.1, by omega, hpmem.1.1, by omega⟩
    rw [hpin] at hsout
    simp at hsout
  have htail : ∀ c : Int, 0 ≤ c → c < 4 →
      (inpaintRegion img x y w h).data ((py * (img.width : Int) + px) * 4 + c)
        = (inpaintPixel img x y w h
            (L1.foldl (fun d p => inpaintPixel img x y w h d p.1 p.2) img.data)
            py px) ((py * (img.width : Int) + px) * 4 + c) := by
    intro c hc0 hc4
    rw [hfold]
    apply inpaintFold_frame
    intro p hp hpb c2 hc20 hc24 hcontra
    obtain ⟨hp1, hp2, hp3, hp4⟩ := inBounds_iff.mp hpb
    obtain ⟨he1, he2, he3⟩ :=
      byteIdx_inj hb1 hb3 hp1 hp3 hc0 hc4 hc20 hc24 hcontra
    apply hnotin
    have : p = (py, px) := by
      rcases p with ⟨pa, pb⟩
      simp only [Prod.mk.injEq]
      exact ⟨he2.symm, he1.symm⟩
    rw [← this]
    exact hp
  have hcount : 0 < (sampleCoords img x y w h px py).length :=
    Nat.pos_of_ne_zero hne
  have happ : ∀ j : Int,
      inpaintPixel img x y w h
        (L1.foldl (fun d p => inpaintPixel img x y w h d p.1 p.2) img.data)
        py px j =
      (updateByte
        (updateByte
          (updateByte
            (updateByte
              (L1.foldl (fun d p => inpaintPixel img x y w h d p.1 p.2) img.data)
              ((py * (img.width : Int) + px) * 4)
              (jsRoundDiv
                (sampleSum
                  (L1.foldl (fun d p => inpaintPixel img x y w h d p.1 p.2) img.data)
                  img.width (sampleCoords img x y w h px py) 0)
                (sampleCoords img x y w h px py).length))
            ((py * (img.width : Int) + px) * 4 + 1)
            (jsRoundDiv
              (sampleSum
                (L1.foldl (fun d p => inpaintPixel img x y w h d p.1 p.2) img.data)
                img.width (sampleCoords img x y w h px py) 1)
              (sampleCoords img x y w h px py).length))
          ((py * (img.width : Int) + px) * 4 + 2)
          (jsRoundDiv
            (sampleSum
              (L1.foldl (fun d p => inpaintPixel img x y w h d p.1 p.2) img.data)
              img.width (sampleCoords img x y w h px py) 2)
            (sampleCoords img x y w h px py).length))
        ((py * (img.width : Int) + px) * 4 + 3) 255) j := by
    intro j
    rw [inpaintPixel, if_pos hb]
    dsimp only
    rw [if_pos hcount]
  refine ⟨?_, ?_⟩
  · intro c hc0 hc3
    rw [htail c hc0 (by omega), happ]
    have hc012 : c = 0 ∨ c = 1 ∨ c = 2 := by omega
    rcases hc012 with rfl | rfl | rfl
    · rw [show (py * (img.width : Int) + px) * 4 + 0
          = (py * (img.width : Int) + px) * 4 by ring]
      simp only [updateByte]
      rw [if_neg (by omega), if_neg (by omega), if_neg (by omega)]
      simp only [if_true]
      rw [sampleSum_congr (fun s hs => hreads s hs 0 (by norm_num) (by norm_num))]
    · simp only [updateByte]
      rw [if_neg (by omega), if_neg (by omega)]
      simp only [if_true]
      rw [sampleSum_congr (fun s hs => hreads s hs 1 (by norm_num) (by norm_num))]
    · simp only [updateByte]
      rw [if_neg (by omega)]
      simp only [if_true]
      rw [sampleSum_congr (fun s hs => hreads s hs 2 (by norm_num) (by norm_num))]
  · rw [htail 3 (by norm_num) (by norm_num), happ]
    simp only [updateByte]
    simp only [if_true]


/-- C7 counterexample: on a 12-by-1 image with two adjacent one-pixel
text regions, the code inpaints the first region's pixel to 51 because
the white pixel of the second text region is included in its sample
average, while the claim's rule (average only over pixels outside every
text region) yields 0. -/
theorem inpaint_includes_other_region_pixels :
    (inpaintAllRegions demoImage demoRegions).data 0 = 51 ∧
    claimInpaintValue demoImage demoRegions 0 0 0 = 0 ∧
    (inpaintAllRegions demoImage demoRegions).data 0
      ≠ claimInpaintValue demoImage demoRegions 0 0 0 :=
  ⟨by decide, by decide, by decide⟩

/-- Evaluation of the amended C7 theorem: inpainting the single region
covering pixel 0 of the demo image averages the five in-bounds samples to
its right (255, 0, 0, 0, 0), writing 51 and alpha 255. -/
theorem inpaintRegion_pixel_witness :
    (inpaintRegion demoImage 0 0 1 1).data
        ((0 * (demoImage.width : Int) + 0) * 4 + 0) = 51 ∧
    (inpaintRegion demoImage 0 0 1 1).data
        ((0 * (demoImage.width : Int) + 0) * 4 + 3) = 255 := by
  have h := inpaintRegion_pixel demoImage 0 0 1 1 0 0 (by decide) (by decide)
    (by decide)
  exact ⟨(h.1 0 (by norm_num) (by norm_num)).trans (by decide), h.2⟩

end Cartographer
